import Mathlib

/-!
Verification development for the asset-discovery engine's event pipeline.
The development shallowly embeds the event scheduler
(`scheduler/scheduler.go`), the dispatcher (`dispatcher/dispatcher.go`)
and the DNS retry core (`plugins/support/resolvers.go`).  Go machine
integers are modelled as `Int`, UUIDs as `Nat` (the zero UUID is `0`),
`time.Time` as an integer logical clock, and the scheduler's
`map[uuid.UUID]*types.Event` as an association list so that statements
about the number of entries per key are expressible.  Every operation is
kept executable so that concrete scenarios evaluate by `decide`.
-/

namespace Engine

/-- UUIDs are modelled as naturals; `0` plays the role of the zero UUID
used by the scheduler to indicate the absence of a dependency. -/
abbrev UUID := Nat

/-- Event states, from `types` as used by `scheduler/scheduler.go`:
Waiting, Processable, InProcess, Done, Cancelled, Error. -/
inductive EventState where
  | waiting
  | processable
  | inProcess
  | done
  | cancelled
  | err
  deriving DecidableEq, Repr

/-- The scheduler's event record (`types.Event` as used by
`scheduler/scheduler.go`).  `hasAction` models `Action != nil`; the only
action behaviour the embedding needs is the canonical completion action
that the tests use and that `schedule` binds by default, namely
`SetEventState(e, Done)`.  `data` models `Event.Data` holding a
`*types.AssetData` (`some key`) or any other payload (`none`). -/
structure Event where
  uuid : UUID := 0
  name : String := ""
  state : EventState := .waiting
  dependOn : List UUID := []
  priority : Int := 0
  repeatEvery : Int := 0
  repeatTimes : Int := 0
  timestamp : Int := 0
  timeout : Int := 0
  hasAction : Bool := false
  data : Option Nat := none
  deriving DecidableEq, Repr

/-- Scheduler statistics (`schedulerStats` in `scheduler/scheduler.go`).
Go `int` counters are modelled as `Int`: the code decrements counters it
never incremented, so they can go negative. -/
structure Stats where
  received : Int := 0
  done : Int := 0
  cancelled : Int := 0
  inProcess : Int := 0
  errored : Int := 0
  waiting : Int := 0
  processable : Int := 0
  deriving DecidableEq, Repr

/-- Scheduler state.  `events` is an association list standing for the Go
map `map[uuid.UUID]*types.Event`; `queue` models the priority queue
(entry plus the priority it was appended with); `cache` models the
per-session `session.Cache` asset set that `Schedule` consults;
`nextUUID` makes `uuid.New()` deterministic; `ghostCancelAll` is a ghost
counter recording how many map entries `CancelAll` has swept (it does not
influence any behaviour); `execLog` is a ghost log of executed actions. -/
structure Sched where
  events : List (UUID × Event) := []
  queue : List (Event × Int) := []
  stats : Stats := {}
  currentRunningActions : Int := 0
  cache : List Nat := []
  clock : Int := 0
  nextUUID : UUID := 1
  ghostCancelAll : Int := 0
  execLog : List UUID := []
  deriving DecidableEq, Repr

/-- Lookup in the events map. -/
def lookupEv (m : List (UUID × Event)) (u : UUID) : Option Event :=
  match m.find? (fun kv => kv.1 = u) with
  | some kv => some kv.2
  | none => none

/-- Deletion from the events map (`delete(s.events, u)`). -/
def eraseKey (u : UUID) (m : List (UUID × Event)) : List (UUID × Event) :=
  m.filter (fun kv => kv.1 ≠ u)

/-- Map update setting the state of the entry at `u`, when present. -/
def setEvState (u : UUID) (st : EventState) (m : List (UUID × Event)) :
    List (UUID × Event) :=
  m.map (fun kv => if kv.1 = u then (kv.1, { kv.2 with state := st }) else kv)

/-- Increment the per-state counter for `st` (`updateSchedulerStats`,
first cascade). -/
def incState (st : Stats) (s : EventState) : Stats :=
  match s with
  | .cancelled => { st with cancelled := st.cancelled + 1 }
  | .done => { st with done := st.done + 1 }
  | .err => { st with errored := st.errored + 1 }
  | .inProcess => { st with inProcess := st.inProcess + 1 }
  | .processable => { st with processable := st.processable + 1 }
  | .waiting => { st with waiting := st.waiting + 1 }

/-- Decrement the per-state counter for `st` (`updateSchedulerStats`,
second cascade). -/
def decState (st : Stats) (s : EventState) : Stats :=
  match s with
  | .cancelled => { st with cancelled := st.cancelled - 1 }
  | .done => { st with done := st.done - 1 }
  | .err => { st with errored := st.errored - 1 }
  | .inProcess => { st with inProcess := st.inProcess - 1 }
  | .processable => { st with processable := st.processable - 1 }
  | .waiting => { st with waiting := st.waiting - 1 }

/-- The body of `updateSchedulerStats(s, oldState, newState)`: when the
state changed, increment the counter of the new state and decrement the
counter of the old one. -/
def updateStats (st : Stats) (o n : EventState) : Stats :=
  if o = n then st else decState (incState st n) o

/-- Sum of the six per-state counters (the right-hand side of the
counters-consistency property in the specification). -/
def statsSum (st : Stats) : Int :=
  st.done + st.cancelled + st.errored + st.inProcess + st.waiting +
    st.processable

/-- The private `schedule(s, e)`: bind the default completion action when
the event has none, remove any existing entry with the same UUID from the
map, store the (deep-copied) event, and append it to the priority queue
with its priority.  The Go function always returns `nil`. -/
def schedulePriv (s : Sched) (e : Event) : Sched :=
  let c := if e.hasAction then e else { e with hasAction := true }
  { s with
    events := (c.uuid, c) :: eraseKey c.uuid s.events,
    queue := s.queue ++ [(c, c.priority)] }

/-- The dependency loop of `Scheduler.Schedule`: starting from state
Waiting, walk `DependOn`; the first dependency that is missing from the
map or not Done switches the state to Processable and stops the walk;
each earlier dependency (necessarily present and Done) with priority at
most the current one lowers the priority to that dependency's priority
minus one. -/
def schedDeps (m : List (UUID × Event)) : List UUID → Int → EventState × Int
  | [], p => (.waiting, p)
  | d :: rest, p =>
    match lookupEv m d with
    | some dep =>
      if dep.state = .done then
        schedDeps m rest (if dep.priority ≤ p then dep.priority - 1 else p)
      else (.processable, p)
    | none => (.processable, p)

/-- The duplicate-asset check at the top of `Scheduler.Schedule`: true
when the event's `Data` carries an asset the session cache already
holds. -/
def scheduleDup (s : Sched) (e : Event) : Bool :=
  match e.data with
  | some a => s.cache.contains a
  | none => false

/-- The mutations of `setupEvent(e)`: assign a fresh UUID when the
event's UUID is zero (modelled by the `nextUUID` counter), stamp the
event with the current time, and clamp `RepeatTimes ≥ -1` and
`RepeatEvery ≥ 0`. -/
def setupEventM (s : Sched) (e : Event) : Event :=
  { e with
    uuid := if e.uuid = 0 then s.nextUUID else e.uuid,
    timestamp := s.clock,
    repeatTimes := max e.repeatTimes (-1),
    repeatEvery := max e.repeatEvery 0 }

/-- The body of `Scheduler.Schedule` past the duplicate check: run
`setupEvent`, compute the state and the possibly lowered priority by the
dependency walk, default a nonpositive priority to 1, store and enqueue
the event, and count it into `TotalEventsReceived`.  The mutated event is
returned alongside, as the caller's `*types.Event` retains the mutations. -/
def scheduleBody (s : Sched) (e : Event) : Sched × Event :=
  let e1 := setupEventM s e
  let sp := schedDeps s.events e1.dependOn e1.priority
  let e2 := { e1 with state := sp.1, priority := if sp.2 ≤ 0 then 1 else sp.2 }
  let s1 := schedulePriv
    { s with nextUUID := if e.uuid = 0 then s.nextUUID + 1 else s.nextUUID } e2
  ({ s1 with stats := { s1.stats with received := s1.stats.received + 1 } }, e2)

/-- The public `Scheduler.Schedule(e)`.  It rejects an event whose
`Data` carries an asset already present in the session cache; note that
it only reads the cache and never inserts into it.  The trailing
`go processEvent(e)` of the source spawns a worker for an event that is
Waiting or Processable; the modelled worker (`processEventM`) acts only
on InProcess events, so it is a no-op here. -/
def Schedule (s : Sched) (e : Event) : Except String (Sched × Event) :=
  if scheduleDup s e then .error "this event has been scheduled previously"
  else .ok (scheduleBody s e)

/-- The method `Scheduler.SetEventState(uuid, state)` delegating to the
private `setEventState`: when the event exists, decrement
`CurrentRunningActions` if a terminal state replaces InProcess, set the
state and update the statistics; when it does not exist, only log. -/
def setEventStateM (s : Sched) (u : UUID) (st : EventState) : Sched :=
  match lookupEv s.events u with
  | some ev =>
    let s :=
      if (st = .done ∨ st = .cancelled ∨ st = .err) ∧ ev.state = .inProcess
      then { s with currentRunningActions := s.currentRunningActions - 1 }
      else s
    { s with
      events := setEvState u st s.events,
      stats := updateStats s.stats ev.state st }
  | none => s

/-- The package-level `SetEventState(e, state)` used by actions: insert
the event into the map when missing, then decrement
`CurrentRunningActions` if a terminal state replaces InProcess, set the
state on the map entry (and the caller's event) and update the
statistics. -/
def setEventStatePkg (s : Sched) (e : Event) (st : EventState) : Sched :=
  match lookupEv s.events e.uuid with
  | some ev =>
    let s :=
      if (st = .done ∨ st = .cancelled ∨ st = .err) ∧ ev.state = .inProcess
      then { s with currentRunningActions := s.currentRunningActions - 1 }
      else s
    { s with
      events := setEvState e.uuid st s.events,
      stats := updateStats s.stats ev.state st }
  | none =>
    let s := { s with events := (e.uuid, e) :: eraseKey e.uuid s.events }
    let s :=
      if (st = .done ∨ st = .cancelled ∨ st = .err) ∧ e.state = .inProcess
      then { s with currentRunningActions := s.currentRunningActions - 1 }
      else s
    { s with
      events := setEvState e.uuid st s.events,
      stats := updateStats s.stats e.state st }

/-- One step of the iteration of `removeEventAndDeps`: an event whose
`DependOn` mentions the removed UUID is counted as Cancelled in the
statistics (no-op when it already was Cancelled) and deleted from the
map. -/
def removeDepsStep (u : UUID) (s : Sched) (kv : UUID × Event) : Sched :=
  if u ∈ kv.2.dependOn then
    { s with
      stats := updateStats s.stats kv.2.state .cancelled,
      events := eraseKey kv.1 s.events }
  else s

/-- The function `removeEventAndDeps(s, uuid)`: every event that depends
on `uuid` is marked Cancelled (with a statistics update) and removed,
then the event itself is removed — with no statistics update for it. -/
def removeEventAndDeps (s : Sched) (u : UUID) : Sched :=
  let s1 := s.events.foldl (removeDepsStep u) s
  { s1 with events := eraseKey u s1.events }

/-- The method `Scheduler.Cancel(uuid)`: when the event exists, set its
state to Cancelled directly — without any statistics update — and then
remove it and its dependents. -/
def Cancel (s : Sched) (u : UUID) : Sched :=
  match lookupEv s.events u with
  | some _ =>
    let s := { s with events := setEvState u .cancelled s.events }
    removeEventAndDeps s u
  | none => s

/-- The method `Scheduler.CancelAll()`: mark every event Cancelled
(directly, without per-event statistics updates) and add the map size to
`TotalEventsCancelled`.  The ghost counter records the same quantity. -/
def CancelAll (s : Sched) : Sched :=
  let n : Int := s.events.length
  { s with
    events := s.events.map (fun kv => (kv.1, { kv.2 with state := .cancelled })),
    stats := { s.stats with cancelled := s.stats.cancelled + n },
    ghostCancelAll := s.ghostCancelAll + n }

/-- The function `reschedule(s, event)` applied to the queue copy the
process loop just popped: a repeatable event is counted into Processable,
has `RepeatTimes` decremented (except in the infinite `-1` case), gets a
fresh timestamp when `RepeatEvery > 0` or `RepeatTimes = -1`, and is
scheduled again; a non-repeatable event is deleted from the map. -/
def reschedule (s : Sched) (ev : Event) : Sched :=
  if ev.repeatEvery = 0 ∧ ev.repeatTimes > 0 then
    let s := { s with stats := updateStats s.stats ev.state .processable }
    schedulePriv s
      { ev with state := .processable, repeatTimes := ev.repeatTimes - 1 }
  else if ev.repeatEvery > 0 ∧ ev.repeatTimes > 0 then
    let s := { s with stats := updateStats s.stats ev.state .processable }
    schedulePriv s
      { ev with state := .processable, timestamp := s.clock,
                repeatTimes := ev.repeatTimes - 1 }
  else if ev.repeatEvery ≥ 0 ∧ ev.repeatTimes = -1 then
    let s := { s with stats := updateStats s.stats ev.state .processable }
    schedulePriv s { ev with state := .processable, timestamp := s.clock }
  else
    { s with events := eraseKey ev.uuid s.events }

/-- The dependency check of the process loop, `isProcessable`: walk
`DependOn`; the walk stops at the first dependency that is present in the
map and not Done, and only reports the event unprocessable when that
dependency differs from both the event's own UUID and the zero UUID. -/
def isProcessableLoop (m : List (UUID × Event)) (selfUuid : UUID) :
    List UUID → Bool
  | [] => true
  | d :: rest =>
    match lookupEv m d with
    | some dep =>
      if dep.state = .done then isProcessableLoop m selfUuid rest
      else if d ≠ selfUuid ∧ d ≠ 0 then false else true
    | none => isProcessableLoop m selfUuid rest

/-- Entry point of the dependency check: `isProcessable(s, event, config)`
starts the walk over `event.DependOn` with `canProcess = true`. -/
def isProcessable (m : List (UUID × Event)) (ev : Event) : Bool :=
  isProcessableLoop m ev.uuid ev.dependOn

/-- The `ProcessConfig` fields the loop branches on.  `checkEvent` and
`debugLevel` only control logging and are omitted. -/
structure ProcessConfig where
  exitWhenEmpty : Bool := true
  executeAction : Bool := true
  returnIfFound : Bool := false
  actionTimeout : Int := 60
  maxConcurrentActions : Int := 10
  deriving DecidableEq, Repr

/-- Modelled from the spec: `processEvent` is not under `src/` (only its
call sites in `Scheduler.Schedule` and `Scheduler.Process` are).  Per
§4.5.3/§4.5.4 of the specification a worker spawned at the InProcess
transition runs the event's `Action`; the canonical action (bound by
default in `schedule` and used throughout the scheduler tests) calls
`SetEventState(e, Done)`.  The modelled worker therefore completes an
InProcess event — setting its map state to Done, updating the statistics
and decrementing `CurrentRunningActions` exactly as the package-level
`SetEventState` does — and records the execution in the ghost log; on an
event that is not InProcess (the spawn at the end of `Schedule`) it does
nothing. -/
def processEventM (s : Sched) (u : UUID) : Sched :=
  match lookupEv s.events u with
  | some ev =>
    if ev.state = .inProcess then
      { s with
        events := setEvState u .done s.events,
        stats := updateStats s.stats .inProcess .done,
        currentRunningActions := s.currentRunningActions - 1,
        execLog := s.execLog ++ [u] }
    else s
  | none => s

/-- Pop the next element from the queue: the first entry carrying the
maximal priority value, mirroring `s.q.Next()` of the priority queue the
scheduler appends to with `AppendPriority(eCopy, eCopy.Priority)`. -/
def qNext : List (Event × Int) → Option ((Event × Int) × List (Event × Int))
  | [] => none
  | x :: xs =>
    match qNext xs with
    | none => some (x, [])
    | some (y, ys) => if x.2 ≥ y.2 then some (x, xs) else some (y, x :: ys)

/-- Result of one iteration of the process loop: the loop returned,
continues, or dereferenced a missing map entry
(`s.events[event.UUID].State` panics in Go when the UUID was removed
while a queue copy survived). -/
inductive IterResult where
  | halt (s : Sched)
  | cont (s : Sched)
  | crash
  deriving Repr

/-- One iteration of `Scheduler.Process`, with the wall-clock time
elapsed during the iteration's sleeps modelled by advancing the logical
clock by `dt` up front.  Faithful to the source: an empty queue returns
under `ExitWhenEmpty`; a popped copy whose map entry is InProcess is
aged against its timeout and re-enqueued; Cancelled or Error map entries
trigger `removeEventAndDeps`; Done map entries trigger `reschedule`;
otherwise the dependency check and the `RepeatEvery` gate decide whether
the event transitions to InProcess (capacity permitting), is executed by
a worker, is merely marked Processable when `ExecuteAction` is off, or is
re-enqueued. -/
def processIter (cfg : ProcessConfig) (dt : Int) (s0 : Sched) : IterResult :=
  let s := { s0 with clock := s0.clock + dt }
  match qNext s.queue with
  | none => if cfg.exitWhenEmpty then .halt s else .cont s
  | some ((ev, _), q') =>
    let s := { s with queue := q' }
    match lookupEv s.events ev.uuid with
    | none => .crash
    | some m =>
      if m.state = .inProcess then
        let timedOut := cfg.actionTimeout > 0 ∧ s.clock > ev.timeout
        let s := if timedOut
          then { s with stats := updateStats s.stats ev.state .err } else s
        let ev := if timedOut then { ev with state := .err } else ev
        .cont (schedulePriv s ev)
      else if m.state = .cancelled ∨ m.state = .err then
        .cont (removeEventAndDeps s ev.uuid)
      else if m.state = .done then
        .cont (reschedule s ev)
      else
        let canProcess := isProcessable s.events ev
        if canProcess ∧ s.clock > ev.timestamp + ev.repeatEvery then
          let under := s.currentRunningActions < cfg.maxConcurrentActions
          let s := if under
            then { s with stats := updateStats s.stats ev.state .inProcess }
            else s
          let ev := if under then { ev with state := .inProcess } else ev
          let ev := { ev with timeout := s.clock + cfg.actionTimeout }
          if cfg.executeAction ∧ ev.hasAction then
            let s := schedulePriv s ev
            if ev.state ≠ .inProcess then .cont s
            else
              let s := { s with
                currentRunningActions := s.currentRunningActions + 1 }
              let s := processEventM s ev.uuid
              if cfg.returnIfFound then .halt s else .cont s
          else
            let s := { s with stats := updateStats s.stats ev.state .processable }
            if cfg.returnIfFound then .halt s else .cont s
        else
          .cont (schedulePriv s ev)

/-- Run the process loop for at most `fuel` iterations; `some s` is the
state at the loop's return, `none` means the fuel ran out or an
iteration crashed. -/
def processRun (cfg : ProcessConfig) (dt : Int) :
    Nat → Sched → Option Sched
  | 0, _ => none
  | fuel + 1, s =>
    match processIter cfg dt s with
    | .halt s1 => some s1
    | .cont s1 => processRun cfg dt fuel s1
    | .crash => none

/-- External steps of the scheduler API (plus single loop iterations),
used to quantify over call sequences. -/
inductive SchedOp where
  | scheduleOp (e : Event)
  | setStateOp (u : UUID) (st : EventState)
  | setStatePkgOp (e : Event) (st : EventState)
  | cancelOp (u : UUID)
  | cancelAllOp
  | iterOp
  deriving Repr

/-- The scheduler state after a loop iteration: the state the iteration
returned or continued with; a crashing iteration stops the program, so
the state just before it is the last observable one. -/
def iterOut (s : Sched) : IterResult → Sched
  | .halt s1 => s1
  | .cont s1 => s1
  | .crash => s

/-- Apply one step.  A rejected `Schedule` leaves the state unchanged (it
returns before mutating anything). -/
def runOp (cfg : ProcessConfig) (dt : Int) (s : Sched) : SchedOp → Sched
  | .scheduleOp e =>
    match Schedule s e with
    | .ok (s1, _) => s1
    | .error _ => s
  | .setStateOp u st => setEventStateM s u st
  | .setStatePkgOp e st => setEventStatePkg s e st
  | .cancelOp u => Cancel s u
  | .cancelAllOp => CancelAll s
  | .iterOp => iterOut s (processIter cfg dt s)

/-- Apply a sequence of steps in order. -/
def runOps (cfg : ProcessConfig) (dt : Int) (s : Sched)
    (ops : List SchedOp) : Sched :=
  ops.foldl (runOp cfg dt) s

/-- An asset as the dispatcher sees it: its cache key and its asset
type. -/
structure DAsset where
  key : Nat
  atype : Nat
  deriving DecidableEq, Repr

/-- Session-visible dispatcher state: the session's deduplication cache,
the input queue of the pipeline the dispatcher appends to, the completion
queue drained by `collectEvents`, and the session counters. -/
structure DispState where
  cache : List Nat := []
  pipeQueue : List Nat := []
  completed : List Nat := []
  workItemsTotal : Int := 0
  workItemsCompleted : Int := 0
  deriving DecidableEq, Repr

/-- The pipeline lookup `d.reg.GetPipeline(a.AssetType())`, abstracted as
an oracle from asset type to either an error or the registered handler
list, because the registry implementation is not under `src/`. -/
abbrev PipelineLookup := Nat → Except String (List Nat)

/-- Modelled from the spec: the registry's `GetPipeline` (the `registry`
package is not under `src/`) returns the ordered handler list for an
asset type and, for a type with no registered handlers, an empty list
rather than an error. -/
def registryNoHandlers : PipelineLookup := fun _ => .ok []

/-- The dispatcher's `DispatchEvent(e)`: reject the asset when the
session cache already holds it; otherwise insert it into the cache, look
up the pipeline — returning the lookup's error with the cache insertion
already performed — and on success append the event data element to the
pipeline queue and increment `WorkItemsTotal`.  The returned pair is the
post-call state together with the returned error, mirroring Go's
mutate-then-return style. -/
def DispatchEvent (reg : PipelineLookup) (s : DispState) (a : DAsset) :
    DispState × Option String :=
  if s.cache.contains a.key then
    (s, some "this event has been scheduled previously")
  else
    let s := { s with cache := a.key :: s.cache }
    match reg a.atype with
    | .error msg => (s, some msg)
    | .ok _ =>
      ({ s with
          pipeQueue := s.pipeQueue ++ [a.key],
          workItemsTotal := s.workItemsTotal + 1 }, none)

/-- Modelled from the spec: the handler runtime (not under `src/`) runs a
pipeline's handlers over its input queue; a pipeline with zero handlers
passes every element straight through to the completion queue, whose
drain (`completedCallback`) increments `WorkItemsCompleted` per element. -/
def runEmptyPipelineAndDrain (s : DispState) : DispState :=
  { s with
    pipeQueue := [],
    completed := s.completed ++ s.pipeQueue,
    workItemsCompleted := s.workItemsCompleted + s.pipeQueue.length }

/-- One attempt outcome inside `dnsQuery`: the blocking query returned a
network error, or a response with the given `Rcode` and number of answer
records.  `RcodeSuccess = 0` and NXDOMAIN (`RcodeNameError`) `= 3` as in
the `dns` package. -/
inductive DnsAttempt where
  | netErr
  | resp (rcode : Nat) (answers : Nat)
  deriving DecidableEq, Repr

/-- A response message is modelled by what `dnsQuery` inspects and
returns: its answer count. -/
abbrev DnsReply := Option Nat × Option String

/-- The retry core `dnsQuery(msg, r, attempts)` of
`plugins/support/resolvers.go`, with the successive outcomes of
`r.QueryBlocking` supplied by the oracle: a network error skips the
attempt; NXDOMAIN returns the error "name does not exist" at once;
success with no answers returns the error "no record of this type" at
once; success with answers returns the response with no error; any other
Rcode falls through to the next attempt; when the attempt budget is
exhausted the result is `(nil, nil)`. -/
def dnsQuery (oracle : Nat → DnsAttempt) : Nat → Nat → DnsReply
  | 0, _ => (none, none)
  | fuel + 1, idx =>
    match oracle idx with
    | .netErr => dnsQuery oracle fuel (idx + 1)
    | .resp rcode answers =>
      if rcode = 3 then (none, some "name does not exist")
      else if rcode = 0 then
        if answers = 0 then (none, some "no record of this type")
        else (some answers, none)
      else dnsQuery oracle fuel (idx + 1)

/-- An attempt outcome that `dnsQuery` silently skips: a network error or
a response whose Rcode is neither success nor NXDOMAIN. -/
def skippableAttempt : DnsAttempt → Prop
  | .netErr => True
  | .resp rcode _ => rcode ≠ 3 ∧ rcode ≠ 0

instance : DecidablePred skippableAttempt := fun a => by
  cases a <;> simp [skippableAttempt] <;> infer_instance

/-- Keys of the events map are pairwise distinct: the well-formedness
that makes the association list behave as the Go map. -/
def NoDupKeys (m : List (UUID × Event)) : Prop :=
  (m.map Prod.fst).Nodup

/-- Whether a scheduler call returned without error. -/
def exOk (r : Except String (Sched × Event)) : Bool :=
  match r with
  | .ok _ => true
  | .error _ => false

/-- State reached by a successful `Schedule`, with the unchanged state as
a (never taken, in the scenarios below) fallback on rejection. -/
def schedOk (s : Sched) (e : Event) : Sched :=
  match Schedule s e with
  | .ok (s1, _) => s1
  | .error _ => s

/-- Scenario (duplicate assets): an event whose `Data` carries asset 42,
scheduled from a fresh scheduler. -/
def dupAssetRun1 : Except String (Sched × Event) :=
  Schedule {} { uuid := 1, data := some 42 }

/-- Scenario (duplicate assets): a second event carrying the same asset
42, scheduled right after the first. -/
def dupAssetRun2 : Except String (Sched × Event) :=
  Schedule (schedOk {} { uuid := 1, data := some 42 })
    { uuid := 2, data := some 42 }

/-- Scenario (dependency gate): the dependency event, UUID 5, Waiting. -/
def depGateDep : Event := { uuid := 5 }

/-- Scenario (dependency gate): an event whose `DependOn` lists its own
UUID 7 before the genuine dependency 5. -/
def depGateEvt : Event :=
  { uuid := 7, dependOn := [7, 5], priority := 1, hasAction := true }

/-- Scenario (dependency gate): insert the dependency in state Waiting
(the package-level `SetEventState` inserts missing events), schedule the
dependent event, and run one iteration of the process loop. -/
def depGateFinal : Sched :=
  runOps {} 1 {}
    [.setStatePkgOp depGateDep .waiting, .scheduleOp depGateEvt, .iterOp]

/-- Scenario (priority): schedule e0 with priority 3, then e1 with
priority 5 depending on e0, from a fresh scheduler. -/
def prioFinal : Sched :=
  runOps {} 1 {}
    [.scheduleOp { uuid := 10, priority := 3 },
     .scheduleOp { uuid := 11, priority := 5, dependOn := [10] }]

/-- Scenario (counters): a single `Schedule` from a fresh scheduler. -/
def oneScheduleFinal : Sched := runOps {} 1 {} [.scheduleOp { uuid := 3 }]

/-- Scenario (cancellation cascade): schedule e0, then e1 depending on
e0, then cancel e0. -/
def cascadeFinal : Sched :=
  runOps {} 1 {}
    [.scheduleOp { uuid := 10 },
     .scheduleOp { uuid := 11, dependOn := [10] },
     .cancelOp 10]

/-- Scenario (repetition): the event with `RepeatEvery = 100` ms and
`RepeatTimes = 3`, carrying an action that sets it Done. -/
def repeatEvt : Event :=
  { uuid := 7, priority := 1, repeatEvery := 100, repeatTimes := 3,
    hasAction := true }

/-- Scenario (repetition): the scheduler right after scheduling the
repeating event. -/
def repeatStart : Sched := schedOk {} repeatEvt

/-- Scenario (repetition): run the process loop to completion
(`ExitWhenEmpty` and `ExecuteAction` are on, nothing else is pending);
the clock advances by 101 ms per iteration, so each rescheduled copy
passes its 100 ms `RepeatEvery` gate at the next visit. -/
def repeatFinal : Option Sched := processRun {} 101 20 repeatStart

/-- Scenario (double schedule, same UUID): the event used for the
idempotence check. -/
def twiceEvt : Event := { uuid := 4, priority := 2 }

/-- Scenario (double schedule, same UUID): first `Schedule`. -/
def twiceRun1 : Except String (Sched × Event) := Schedule {} twiceEvt

/-- Scenario (double schedule, same UUID): second `Schedule` of the
event returned by the first. -/
def twiceRun2 : Except String (Sched × Event) :=
  match twiceRun1 with
  | .ok (s1, e1) => Schedule s1 e1
  | .error e => .error e

/-- Measure for the counters invariant: the six per-state counters minus
the ghost tally of map entries swept by `CancelAll`.  Every scheduler
operation preserves it. -/
def SG (s : Sched) : Int := statsSum s.stats - s.ghostCancelAll

/-- Whether the events map holds an entry for `x` whose state is not
Done — the condition under which the dependency walk of `isProcessable`
stops at `x`. -/
def presentNotDone (m : List (UUID × Event)) (x : UUID) : Bool :=
  match lookupEv m x with
  | some xev => xev.state ≠ .done
  | none => false

/-- Witness scenario (dependency gate, fixed shape): the dependency
event, Waiting in the map. -/
def depGateWDep : Event := { uuid := 5 }

/-- Witness scenario (dependency gate, fixed shape): an event depending
only on 5, Processable, ready in the queue. -/
def depGateWEvt : Event :=
  { uuid := 7, dependOn := [5], priority := 1, state := .processable,
    hasAction := true }

/-- Witness scenario (dependency gate, fixed shape): the scheduler state
with both events in the map and the dependent one queued. -/
def depGateWSched : Sched :=
  { events := [(5, depGateWDep), (7, depGateWEvt)],
    queue := [(depGateWEvt, 1)] }

/-- Witness scenario (priority lowering): a scheduler holding event 10 at
priority 3 already transitioned to Done. -/
def prioDoneStart : Sched :=
  runOps {} 1 {}
    [.scheduleOp { uuid := 10, priority := 3 }, .setStateOp 10 .done]

/-- Witness scenario (priority lowering): the stored copy of event 10
after scheduling and the transition to Done. -/
def prioDoneDep : Event :=
  { uuid := 10, priority := 3, state := .done, hasAction := true }

/-- Witness scenario (priority lowering): event 11 at priority 5
depending on the Done event 10. -/
def prioDoneEvt : Event := { uuid := 11, priority := 5, dependOn := [10] }

/-- Witness scenario (priority lowering): the schedule of the dependent
event. -/
def prioDoneRes : Except String (Sched × Event) :=
  Schedule prioDoneStart prioDoneEvt

/-- Witness scenario (priority lowering): the resulting scheduler. -/
def prioDoneS1 : Sched :=
  match prioDoneRes with
  | .ok (s, _) => s
  | .error _ => {}

/-- Witness scenario (priority lowering): the resulting mutated event. -/
def prioDoneE1 : Event :=
  match prioDoneRes with
  | .ok (_, e) => e
  | .error _ => {}

/-- Witness scenario (double schedule): the scheduler and event after the
first `Schedule` of the idempotence scenario. -/
def twiceS1 : Sched :=
  match twiceRun1 with
  | .ok (s, _) => s
  | .error _ => {}

/-- Witness scenario (double schedule): the mutated event returned by the
first `Schedule`. -/
def twiceE1 : Event :=
  match twiceRun1 with
  | .ok (_, e) => e
  | .error _ => {}

/-- Witness scenario (double schedule): the scheduler after the second
`Schedule`. -/
def twiceS2 : Sched :=
  match twiceRun2 with
  | .ok (s, _) => s
  | .error _ => {}

/-- Witness scenario (double schedule): the event returned by the second
`Schedule`. -/
def twiceE2 : Event :=
  match twiceRun2 with
  | .ok (_, e) => e
  | .error _ => {}

/-- C1 counterexample: scheduling two events that carry the same asset
(key 42) in the same session succeeds both times — `Scheduler.Schedule`
consults the session cache but never inserts into it, so the claimed
symmetric per-asset deduplication does not hold for `Schedule`: the
second call does not fail with "already scheduled" and both events end
up stored and enqueued. -/
theorem C1_dedup_counterexample :
    exOk dupAssetRun1 = true ∧ exOk dupAssetRun2 = true ∧
    dupAssetRun2.toOption.map (fun p => (p.1.events.length, p.1.cache)) =
      some (2, []) := by
  decide

/-- C2 counterexample: with the dependency event 5 Waiting in the map
and event 7 declaring `DependOn = [7, 5]` (its own UUID ahead of the
genuine dependency), one process-loop iteration transitions event 7 to
InProcess and runs its action (the ghost log records the execution and
the event completes) even though dependency 5 is present and not Done —
the dependency walk stops at the event's own UUID without blocking and
never inspects 5. -/
theorem C2_depGate_counterexample :
    5 ∈ depGateEvt.dependOn ∧
    depGateFinal.execLog = [7] ∧
    (lookupEv depGateFinal.events 5).map (fun x => x.state) =
      some .waiting ∧
    (lookupEv depGateFinal.events 7).map (fun x => x.state) =
      some .done := by
  decide

/-- C3 counterexample: after scheduling e0 (UUID 10) with priority 3 and
then e1 (UUID 11) with priority 5 depending on e0, e1's priority is
still 5, not 2 — the lowering applies only to dependencies that are
already Done, and e0 is Waiting right after its own Schedule. -/
theorem C3_priority_counterexample :
    (lookupEv prioFinal.events 11).map (fun x => x.priority) = some 5 ∧
    ¬((lookupEv prioFinal.events 11).map (fun x => x.priority) = some 2) := by
  decide

/-- C4 counterexample: a single `Schedule` from a fresh scheduler leaves
the scheduler quiescent (no event InProcess) with
`TotalEventsReceived = 1` while the six per-state counters sum to 0, so
the claimed identity fails — `Schedule` increments only
`TotalEventsReceived` and never the per-state counters. -/
theorem C4_counters_counterexample :
    oneScheduleFinal.stats.received = 1 ∧
    statsSum oneScheduleFinal.stats = 0 ∧
    ¬(oneScheduleFinal.stats.received = statsSum oneScheduleFinal.stats) ∧
    oneScheduleFinal.stats.inProcess = 0 ∧
    (∀ kv ∈ oneScheduleFinal.events, kv.2.state ≠ .inProcess) := by
  decide

/-- C5 counterexample: scheduling e0 (UUID 10), then e1 (UUID 11)
depending on e0, and calling `Cancel(10)` removes both events but
increases `TotalEventsCancelled` by exactly 1, not 2 — only the
dependent's cancellation goes through `updateSchedulerStats`; the
directly cancelled event's state is set without a statistics update. -/
theorem C5_cascade_counterexample :
    lookupEv cascadeFinal.events 10 = none ∧
    lookupEv cascadeFinal.events 11 = none ∧
    cascadeFinal.stats.cancelled = 1 ∧
    ¬(cascadeFinal.stats.cancelled = 2) := by
  decide

/-- C5 amended: in the cancellation-cascade scenario both events are
removed from the map, but `TotalEventsCancelled` grows by exactly 1 (the
dependent e1 only); the target e0 is marked Cancelled and deleted
without any counter update. -/
theorem C5_cascade_amended :
    lookupEv cascadeFinal.events 10 = none ∧
    lookupEv cascadeFinal.events 11 = none ∧
    cascadeFinal.events = [] ∧
    cascadeFinal.stats.cancelled = 1 ∧
    cascadeFinal.stats.received = 2 := by
  decide

/-- C6 counterexample: for the event scheduled with `RepeatEvery = 100`
ms and `RepeatTimes = 3`, running the process loop to completion does
not execute the action exactly 3 times — the ghost log shows a different
count, because `RepeatTimes` counts repetitions after the first
execution. -/
theorem C6_repeat_counterexample :
    ¬(repeatFinal.map (fun s => s.execLog.length) = some 3) := by
  decide

/-- C6 amended: the event scheduled with `RepeatEvery = 100` ms and
`RepeatTimes = 3` has its action executed exactly 4 times — once when
first processed and once per repetition, `reschedule` decrementing
`RepeatTimes` from 3 to 0 — and is afterwards gone from the events map
(the loop then exits on the empty queue under `ExitWhenEmpty`). -/
theorem C6_repeat_amended :
    repeatFinal.map (fun s => s.execLog.length) = some 4 ∧
    repeatFinal.map (fun s => s.execLog) = some [7, 7, 7, 7] ∧
    repeatFinal.map (fun s => lookupEv s.events 7) = some none ∧
    repeatFinal.map (fun s => s.queue.length) = some 0 := by
  decide

/-- The retry loop's result is determined by the outcomes of the
attempts within its budget. -/
theorem dnsQuery_agree (o1 o2 : Nat → DnsAttempt) :
    ∀ fuel idx, (∀ i, i < fuel → o1 (idx + i) = o2 (idx + i)) →
      dnsQuery o1 fuel idx = dnsQuery o2 fuel idx := by
  intro fuel
  induction fuel with
  | zero => intro idx _; rfl
  | succ n ih =>
    intro idx h
    have h0 : o1 idx = o2 idx := by simpa using h 0 (Nat.succ_pos n)
    have hrest : ∀ i, i < n → o1 (idx + 1 + i) = o2 (idx + 1 + i) := by
      intro i hi
      have := h (i + 1) (Nat.succ_lt_succ hi)
      have harith : idx + (i + 1) = idx + 1 + i := by omega
      rwa [harith] at this
    simp only [dnsQuery, h0]
    cases h2 : o2 idx with
    | netErr => exact ih (idx + 1) hrest
    | resp rcode answers =>
      by_cases h3 : rcode = 3
      · simp [h3]
      · by_cases h4 : rcode = 0
        · simp [h3, h4]
        · simp [h3, h4]
          exact ih (idx + 1) hrest

/-- When every attempt in the budget is skippable, the retry loop falls
off the end and returns no reply and no error. -/
theorem dnsQuery_exhaust (o : Nat → DnsAttempt) :
    ∀ fuel idx, (∀ i, i < fuel → skippableAttempt (o (idx + i))) →
      dnsQuery o fuel idx = (none, none) := by
  intro fuel
  induction fuel with
  | zero => intro idx _; rfl
  | succ n ih =>
    intro idx h
    have h0 : skippableAttempt (o idx) := by simpa using h 0 (Nat.succ_pos n)
    have hrest : ∀ i, i < n → skippableAttempt (o (idx + 1 + i)) := by
      intro i hi
      have := h (i + 1) (Nat.succ_lt_succ hi)
      have harith : idx + (i + 1) = idx + 1 + i := by omega
      rwa [harith] at this
    cases h2 : o idx with
    | netErr => simp only [dnsQuery, h2]; exact ih (idx + 1) hrest
    | resp rcode answers =>
      rw [h2] at h0
      obtain ⟨h3, h4⟩ := h0
      simp only [dnsQuery, h2, if_neg h3, if_neg h4]
      exact ih (idx + 1) hrest

/-- C8: the retry core `dnsQuery` makes at most 50 attempts (its result
depends only on the first 50 attempt outcomes); an attempt whose query
returns a network error is silently skipped; an NXDOMAIN response
returns the error "name does not exist" immediately; a success response
with an empty answer section returns the error "no record of this type"
immediately; a success response with answers returns the message with no
error; and when every attempt of the budget is skipped the result is
`(nil, nil)`. -/
theorem C8_dnsQuery_behaviour :
    (∀ (o : Nat → DnsAttempt) fuel idx, o idx = .netErr →
      dnsQuery o (fuel + 1) idx = dnsQuery o fuel (idx + 1)) ∧
    (∀ (o : Nat → DnsAttempt) fuel idx a, o idx = .resp 3 a →
      dnsQuery o (fuel + 1) idx = (none, some "name does not exist")) ∧
    (∀ (o : Nat → DnsAttempt) fuel idx, o idx = .resp 0 0 →
      dnsQuery o (fuel + 1) idx = (none, some "no record of this type")) ∧
    (∀ (o : Nat → DnsAttempt) fuel idx a, o idx = .resp 0 a → a ≠ 0 →
      dnsQuery o (fuel + 1) idx = (some a, none)) ∧
    (∀ (o : Nat → DnsAttempt) idx,
      (∀ i, i < 50 → skippableAttempt (o (idx + i))) →
      dnsQuery o 50 idx = (none, none)) ∧
    (∀ o1 o2 : Nat → DnsAttempt, (∀ i, i < 50 → o1 i = o2 i) →
      dnsQuery o1 50 0 = dnsQuery o2 50 0) := by
  refine ⟨?_, ?_, ?_, ?_, ?_, ?_⟩
  · intro o fuel idx h; simp [dnsQuery, h]
  · intro o fuel idx a h; simp [dnsQuery, h]
  · intro o fuel idx h; simp [dnsQuery, h]
  · intro o fuel idx a h ha; simp [dnsQuery, h, ha]
  · intro o idx h; exact dnsQuery_exhaust o 50 idx h
  · intro o1 o2 h
    exact dnsQuery_agree o1 o2 50 0 (by intro i hi; simpa using h i hi)

/-- C8 witness: with every attempt answering NXDOMAIN, a 50-attempt
query returns the "name does not exist" error at once. -/
theorem C8_dnsQuery_behaviour_witness :
    dnsQuery (fun _ => DnsAttempt.resp 3 5) 50 0 =
      (none, some "name does not exist") :=
  C8_dnsQuery_behaviour.2.1 (fun _ => DnsAttempt.resp 3 5) 49 0 5 rfl

/-- A successful `Schedule` leaves the session cache untouched: the
duplicate check only reads it. -/
theorem Schedule_cache_eq (s : Sched) (e : Event) (s1 : Sched) (e1 : Event)
    (h : Schedule s e = .ok (s1, e1)) : s1.cache = s.cache := by
  simp only [Schedule] at h
  split at h
  · exact absurd h (by simp)
  · rw [Except.ok.injEq, Prod.mk.injEq] at h
    obtain ⟨hs, _⟩ := h
    subst hs
    simp [scheduleBody, schedulePriv]

/-- C9: the pipeline lookup for an asset type with no registered
handlers yields an empty list rather than an error, and `DispatchEvent`
returns no error; the event completes at once — with no handlers the
pipeline passes it straight to the completion queue, whose drain counts
it into `WorkItemsCompleted`. -/
theorem C9_empty_pipeline (s : DispState) (a : DAsset)
    (h : s.cache.contains a.key = false) :
    registryNoHandlers a.atype = .ok [] ∧
    (DispatchEvent registryNoHandlers s a).2 = none ∧
    (runEmptyPipelineAndDrain
        (DispatchEvent registryNoHandlers s a).1).completed.contains a.key
      = true ∧
    (runEmptyPipelineAndDrain
        (DispatchEvent registryNoHandlers s a).1).workItemsCompleted
      = s.workItemsCompleted + s.pipeQueue.length + 1 := by
  have hmem : a.key ∉ s.cache := by simpa using h
  refine ⟨rfl, ?_, ?_, ?_⟩ <;>
    simp [DispatchEvent, registryNoHandlers, runEmptyPipelineAndDrain, hmem] <;>
    push_cast <;> ring

/-- C9 witness: dispatching asset 9 (type 2, no handlers registered)
from a fresh session returns no error and the event reaches the
completion queue. -/
theorem C9_empty_pipeline_witness :
    (DispatchEvent registryNoHandlers {} ⟨9, 2⟩).2 = none ∧
    (runEmptyPipelineAndDrain
        (DispatchEvent registryNoHandlers {} ⟨9, 2⟩).1).completed.contains 9
      = true :=
  ⟨(C9_empty_pipeline {} ⟨9, 2⟩ rfl).2.1,
   (C9_empty_pipeline {} ⟨9, 2⟩ rfl).2.2.1⟩

/-- C10: `DispatchEvent` inserts the asset into the session cache before
the pipeline lookup; when the lookup fails the error is returned with
the cache insertion already in place and without touching
`WorkItemsTotal` or the pipeline queue, so a subsequent `DispatchEvent`
for the same asset in the same session fails with "this event has been
scheduled previously" although no work item was ever enqueued for it. -/
theorem C10_dispatch_not_atomic (reg reg2 : PipelineLookup) (s : DispState)
    (a : DAsset) (msg : String)
    (hc : s.cache.contains a.key = false)
    (hr : reg a.atype = .error msg) :
    (DispatchEvent reg s a).2 = some msg ∧
    (DispatchEvent reg s a).1 = { s with cache := a.key :: s.cache } ∧
    (DispatchEvent reg s a).1.workItemsTotal = s.workItemsTotal ∧
    (DispatchEvent reg s a).1.pipeQueue = s.pipeQueue ∧
    DispatchEvent reg2 (DispatchEvent reg s a).1 a =
      ((DispatchEvent reg s a).1,
        some "this event has been scheduled previously") := by
  have hmem : a.key ∉ s.cache := by simpa using hc
  refine ⟨?_, ?_, ?_, ?_, ?_⟩ <;> simp [DispatchEvent, hmem, hr]

/-- C10 witness: with a failing pipeline lookup, dispatching asset 42
returns the lookup error, leaves the work-item counter at zero, and the
retry fails as a duplicate. -/
theorem C10_dispatch_not_atomic_witness :
    (DispatchEvent (fun _ => .error "no pipeline") {} ⟨42, 1⟩).2 =
      some "no pipeline" ∧
    (DispatchEvent (fun _ => .error "no pipeline") {} ⟨42, 1⟩).1.workItemsTotal
      = (0 : Int) ∧
    (DispatchEvent registryNoHandlers
        (DispatchEvent (fun _ => .error "no pipeline") {} ⟨42, 1⟩).1
        ⟨42, 1⟩).2 = some "this event has been scheduled previously" := by
  have h := C10_dispatch_not_atomic (fun _ => .error "no pipeline")
    registryNoHandlers {} ⟨42, 1⟩ "no pipeline" rfl rfl
  exact ⟨h.1, by rw [h.2.2.1], by rw [h.2.2.2.2]⟩

/-- C1 amended: the dispatcher deduplicates per session — when the
session cache does not hold the asset and the pipeline lookup succeeds,
`DispatchEvent` succeeds and records the asset; once the cache holds the
asset, every further `DispatchEvent` for it fails with "this event has
been scheduled previously" and leaves the dispatcher state, including
the enqueued work items, unchanged.  `Scheduler.Schedule`, however, only
reads the session cache and never inserts into it, so Schedule alone
does not deduplicate: successive Schedules of events carrying the same
asset all succeed unless a Dispatch inserted the asset first. -/
theorem C1_dedup_amended :
    (∀ (reg : PipelineLookup) (s : DispState) (a : DAsset) (hs : List Nat),
      s.cache.contains a.key = false → reg a.atype = .ok hs →
      DispatchEvent reg s a =
        ({ s with cache := a.key :: s.cache,
                  pipeQueue := s.pipeQueue ++ [a.key],
                  workItemsTotal := s.workItemsTotal + 1 }, none)) ∧
    (∀ (reg : PipelineLookup) (s : DispState) (a : DAsset),
      s.cache.contains a.key = true →
      DispatchEvent reg s a =
        (s, some "this event has been scheduled previously")) ∧
    (∀ (reg : PipelineLookup) (s : DispState) (a : DAsset),
      s.cache.contains a.key = false →
      ((DispatchEvent reg s a).1).cache.contains a.key = true) ∧
    (∀ (s : Sched) (e : Event) (s1 : Sched) (e1 : Event),
      Schedule s e = .ok (s1, e1) → s1.cache = s.cache) := by
  refine ⟨?_, ?_, ?_, ?_⟩
  · intro reg s a hs hc hr
    have hmem : a.key ∉ s.cache := by simpa using hc
    simp [DispatchEvent, hmem, hr]
  · intro reg s a hc
    have hmem : a.key ∈ s.cache := by simpa using hc
    simp [DispatchEvent, hmem]
  · intro reg s a hc
    have hmem : a.key ∉ s.cache := by simpa using hc
    cases hr : reg a.atype <;> simp [DispatchEvent, hmem, hr]
  · exact Schedule_cache_eq

/-- C1 witness: dispatching asset 42 from a fresh session succeeds, and
re-dispatching it fails as a duplicate with the state unchanged. -/
theorem C1_dedup_amended_witness :
    DispatchEvent registryNoHandlers {} ⟨42, 1⟩ =
      ({ cache := [42], pipeQueue := [42], completed := [],
         workItemsTotal := 1, workItemsCompleted := 0 }, none) ∧
    DispatchEvent registryNoHandlers
        { cache := [42], pipeQueue := [42], workItemsTotal := 1 } ⟨42, 1⟩ =
      ({ cache := [42], pipeQueue := [42], workItemsTotal := 1 },
        some "this event has been scheduled previously") :=
  ⟨C1_dedup_amended.1 registryNoHandlers {} ⟨42, 1⟩ [] rfl rfl,
   C1_dedup_amended.2.1 registryNoHandlers
     { cache := [42], pipeQueue := [42], workItemsTotal := 1 } ⟨42, 1⟩ rfl⟩

/-- Looking up the key just inserted returns the inserted event. -/
theorem lookupEv_insert (u : UUID) (v : Event) (m : List (UUID × Event)) :
    lookupEv ((u, v) :: m) u = some v := by
  simp [lookupEv, List.find?]

/-- Looking up a different key skips the inserted head entry. -/
theorem lookupEv_cons_ne (u w : UUID) (v : Event) (m : List (UUID × Event))
    (h : u ≠ w) : lookupEv ((u, v) :: m) w = lookupEv m w := by
  simp [lookupEv, List.find?, h]

/-- Deleting one key leaves lookups of other keys unchanged. -/
theorem lookupEv_eraseKey_ne (u w : UUID) (h : w ≠ u) :
    ∀ m : List (UUID × Event), lookupEv (eraseKey u m) w = lookupEv m w := by
  intro m
  induction m with
  | nil => rfl
  | cons kv rest ih =>
    rcases kv with ⟨k, v⟩
    by_cases hk : k = u
    · have h1 : eraseKey u ((k, v) :: rest) = eraseKey u rest := by
        simp [eraseKey, List.filter_cons, hk]
      have h2 : lookupEv ((k, v) :: rest) w = lookupEv rest w := by
        refine lookupEv_cons_ne k w v rest ?_
        rw [hk]; exact fun hc => h hc.symm
      rw [h1, h2]; exact ih
    · have h1 : eraseKey u ((k, v) :: rest) = (k, v) :: eraseKey u rest := by
        simp [eraseKey, List.filter_cons, hk]
      rw [h1]
      by_cases hw : k = w
      · subst hw
        rw [lookupEv_insert k v (eraseKey u rest), lookupEv_insert k v rest]
      · rw [lookupEv_cons_ne k w v (eraseKey u rest) hw,
          lookupEv_cons_ne k w v rest hw]
        exact ih

/-- Deleting a key removes every entry with that key. -/
theorem lookupEv_eraseKey_self (u : UUID) :
    ∀ m : List (UUID × Event), lookupEv (eraseKey u m) u = none := by
  intro m
  induction m with
  | nil => rfl
  | cons kv rest ih =>
    rcases kv with ⟨k, v⟩
    by_cases hk : k = u
    · have h1 : eraseKey u ((k, v) :: rest) = eraseKey u rest := by
        simp [eraseKey, List.filter_cons, hk]
      rw [h1]; exact ih
    · have h1 : eraseKey u ((k, v) :: rest) = (k, v) :: eraseKey u rest := by
        simp [eraseKey, List.filter_cons, hk]
      rw [h1, lookupEv_cons_ne k u v (eraseKey u rest) hk]
      exact ih

/-- Deletion is idempotent. -/
theorem eraseKey_idem (u : UUID) (m : List (UUID × Event)) :
    eraseKey u (eraseKey u m) = eraseKey u m := by
  induction m with
  | nil => rfl
  | cons kv rest ih =>
    by_cases hk : kv.1 = u <;> simp [eraseKey, hk] at * <;> assumption

/-- The keys of the map after deletion form a sublist of the original
keys. -/
theorem eraseKey_keys_sublist (u : UUID) (m : List (UUID × Event)) :
    ((eraseKey u m).map Prod.fst).Sublist (m.map Prod.fst) :=
  (List.filter_sublist m).map Prod.fst

/-- The deleted key no longer occurs among the keys. -/
theorem eraseKey_not_mem_keys (u : UUID) (m : List (UUID × Event)) :
    u ∉ (eraseKey u m).map Prod.fst := by
  intro hmem
  obtain ⟨kv, hkv, hfst⟩ := List.mem_map.mp hmem
  have := List.of_mem_filter hkv
  simp [hfst] at this

/-- Replacing a slot — delete then insert — preserves distinctness of the
map's keys. -/
theorem noDupKeys_insert (u : UUID) (v : Event) (m : List (UUID × Event))
    (h : NoDupKeys m) : NoDupKeys ((u, v) :: eraseKey u m) := by
  refine List.Nodup.cons ?_ ((eraseKey_keys_sublist u m).nodup h)
  exact fun hmem => eraseKey_not_mem_keys u m hmem

/-- C3 amended: `Schedule` lowers an event's priority to
`dep.priority - 1` only for a dependency that is present in the events
map with state Done (and priority at most the event's); the lowered
priority is kept when it stays positive, both on the returned mutated
event and on the stored copy.  In the claim's e0/e1 scenario e0 is still
Waiting when e1 is scheduled, so no lowering happens and e1 keeps
priority 5 (see the counterexample); priority 2 results only when e0 has
already been transitioned to Done. -/
theorem C3_priority_amended (s : Sched) (e : Event) (d : UUID) (dep : Event)
    (s1 : Sched) (e1 : Event)
    (hdeps : e.dependOn = [d])
    (hfind : lookupEv s.events d = some dep)
    (hdone : dep.state = .done)
    (hle : dep.priority ≤ e.priority)
    (hgt : 1 < dep.priority)
    (hok : Schedule s e = .ok (s1, e1)) :
    e1.priority = dep.priority - 1 ∧ e1.state = .waiting ∧
    (lookupEv s1.events e1.uuid).map (fun x => x.priority) =
      some (dep.priority - 1) := by
  simp only [Schedule] at hok
  split at hok
  · exact absurd hok (by simp)
  · rw [Except.ok.injEq] at hok
    have hpair : (s1, e1) = scheduleBody s e := hok.symm
    rw [Prod.ext_iff] at hpair
    obtain ⟨hs1, he1⟩ := hpair
    subst hs1; subst he1
    have hsp : schedDeps s.events (setupEventM s e).dependOn
        (setupEventM s e).priority = (.waiting, dep.priority - 1) := by
      simp [setupEventM, hdeps, schedDeps, hfind, hdone, hle]
    have hclamp : ¬(dep.priority - 1 ≤ 0) := by omega
    refine ⟨?_, ?_, ?_⟩
    · simp [scheduleBody, hsp, hclamp]
    · simp [scheduleBody, hsp]
    · by_cases ha : (setupEventM s e).hasAction <;>
        simp [scheduleBody, schedulePriv, hsp, hclamp, ha, lookupEv_insert]

/-- C3 witness: with event 10 stored Done at priority 3, scheduling
event 11 at priority 5 with `DependOn = [10]` lowers its priority to 2,
both on the returned event and on the stored copy. -/
theorem C3_priority_amended_witness :
    prioDoneE1.priority = prioDoneDep.priority - 1 ∧
    prioDoneE1.state = .waiting ∧
    (lookupEv prioDoneS1.events prioDoneE1.uuid).map (fun x => x.priority) =
      some (prioDoneDep.priority - 1) :=
  C3_priority_amended prioDoneStart prioDoneEvt 10 prioDoneDep prioDoneS1
    prioDoneE1 rfl rfl rfl (by decide) (by decide) rfl

/-- The dependency walk reports "not processable" when some dependency
is present and not Done, provided no earlier entry equal to the walking
event's own UUID or the zero UUID is also present and not Done (such an
entry stops the walk without blocking). -/
theorem isProcessableLoop_blocks (m : List (UUID × Event)) (selfU : UUID) :
    ∀ (l : List UUID) (d : UUID) (dep : Event),
      d ∈ l → lookupEv m d = some dep → dep.state ≠ .done →
      (∀ x ∈ l, (x = selfU ∨ x = 0) → presentNotDone m x = false) →
      isProcessableLoop m selfU l = false := by
  intro l
  induction l with
  | nil => intro d dep hmem _ _ _; exact absurd hmem (List.not_mem_nil d)
  | cons x rest ih =>
    intro d dep hmem hfind hnd hguard
    cases hx : lookupEv m x with
    | none =>
      simp only [isProcessableLoop, hx]
      have hdx : d ≠ x := by
        intro h; rw [h, hx] at hfind; cases hfind
      have hmem2 : d ∈ rest := by
        rcases List.mem_cons.mp hmem with h | h
        · exact absurd h hdx
        · exact h
      exact ih d dep hmem2 hfind hnd
        (fun y hy hz => hguard y (List.mem_cons_of_mem x hy) hz)
    | some xev =>
      simp only [isProcessableLoop, hx]
      by_cases hxdone : xev.state = .done
      · rw [if_pos hxdone]
        have hdx : d ≠ x := by
          intro h
          rw [h, hx] at hfind
          have hx2 : xev = dep := Option.some.inj hfind
          rw [hx2] at hxdone
          exact hnd hxdone
        have hmem2 : d ∈ rest := by
          rcases List.mem_cons.mp hmem with h | h
          · exact absurd h hdx
          · exact h
        exact ih d dep hmem2 hfind hnd
          (fun y hy hz => hguard y (List.mem_cons_of_mem x hy) hz)
      · rw [if_neg hxdone]
        have hxsz : ¬(x = selfU ∨ x = 0) := by
          intro hor
          have hg := hguard x (List.mem_cons_self x rest) hor
          simp [presentNotDone, hx] at hg
          exact hxdone hg
        push_neg at hxsz
        simp [hxsz]

/-- A queued event that the dependency check blocks is merely re-enqueued
by the loop iteration: no state change, no action execution. -/
theorem processIter_blocked (cfg : ProcessConfig) (dt p : Int) (s : Sched)
    (ev mev : Event)
    (hsq : s.queue = [(ev, p)])
    (hfm : lookupEv s.events ev.uuid = some mev)
    (hstate : mev.state = .waiting ∨ mev.state = .processable)
    (hcan : isProcessable s.events ev = false) :
    processIter cfg dt s =
      .cont (schedulePriv { s with clock := s.clock + dt, queue := [] } ev) := by
  have hni : ¬(mev.state = .inProcess) := by
    rcases hstate with h | h <;> simp [h]
  have hnc : ¬(mev.state = .cancelled ∨ mev.state = .err) := by
    rcases hstate with h | h <;> simp [h]
  have hnd : ¬(mev.state = .done) := by
    rcases hstate with h | h <;> simp [h]
  simp only [processIter, hsq]
  simp [qNext, hfm, hni, hnc, hnd, hcan]

/-- C2 amended: the dependency gate holds conditionally.  If `d` is a
dependency of event `e`, present in the events map and not Done, and no
entry of `e.DependOn` equal to `e`'s own UUID or the zero UUID is
present-and-not-Done (the walk stops at such an entry without blocking,
which is exactly the failure shown by the counterexample), then
`isProcessable` reports false and the loop iteration that pops `e`
leaves `e`'s stored state unchanged and executes no action. -/
theorem C2_depGate_amended (m : List (UUID × Event)) (ev : Event) (d : UUID)
    (dep : Event)
    (hmem : d ∈ ev.dependOn)
    (hfind : lookupEv m d = some dep)
    (hnd : dep.state ≠ .done)
    (hguard : ∀ x ∈ ev.dependOn, (x = ev.uuid ∨ x = 0) →
      presentNotDone m x = false) :
    isProcessable m ev = false ∧
    (∀ (cfg : ProcessConfig) (dt p : Int) (s : Sched) (mev : Event),
      s.events = m → s.queue = [(ev, p)] →
      lookupEv m ev.uuid = some mev →
      (mev.state = .waiting ∨ mev.state = .processable) →
      ∃ s1, processIter cfg dt s = .cont s1 ∧
        s1.execLog = s.execLog ∧
        (lookupEv s1.events ev.uuid).map (fun x => x.state) = some ev.state) := by
  have hblock : isProcessable m ev = false :=
    isProcessableLoop_blocks m ev.uuid ev.dependOn d dep hmem hfind hnd hguard
  refine ⟨hblock, ?_⟩
  intro cfg dt p s mev hse hsq hfm hstate
  have hcan : isProcessable s.events ev = false := by rw [hse]; exact hblock
  have hfm2 : lookupEv s.events ev.uuid = some mev := by rw [hse]; exact hfm
  refine ⟨schedulePriv { s with clock := s.clock + dt, queue := [] } ev,
    processIter_blocked cfg dt p s ev mev hsq hfm2 hstate hcan, ?_, ?_⟩
  · simp [schedulePriv]
  · by_cases ha : ev.hasAction <;> simp [schedulePriv, ha, lookupEv_insert]

/-- C2 witness: with dependency 5 Waiting and event 7 depending only on
5 (no self or zero entries), event 7 is not processable and the loop
iteration that pops it runs no action and leaves its state alone. -/
theorem C2_depGate_amended_witness :
    isProcessable depGateWSched.events depGateWEvt = false ∧
    (∃ s1, processIter {} 1 depGateWSched = .cont s1 ∧
      s1.execLog = depGateWSched.execLog ∧
      (lookupEv s1.events depGateWEvt.uuid).map (fun x => x.state) =
        some depGateWEvt.state) := by
  have h := C2_depGate_amended depGateWSched.events depGateWEvt 5 depGateWDep
    (by decide) (by decide) (by decide) (by decide)
  exact ⟨h.1, h.2 {} 1 1 depGateWSched depGateWEvt rfl rfl (by decide)
    (Or.inr rfl)⟩

/-- Deleting a key from a map whose head carries that key drops the
head. -/
theorem eraseKey_cons_self (u : UUID) (v : Event) (m : List (UUID × Event)) :
    eraseKey u ((u, v) :: m) = eraseKey u m := by
  simp [eraseKey, List.filter_cons]

/-- The event returned by `scheduleBody` keeps a nonzero incoming UUID. -/
theorem scheduleBody_uuid (s : Sched) (e : Event) (h : e.uuid ≠ 0) :
    (scheduleBody s e).2.uuid = e.uuid := by
  simp [scheduleBody, setupEventM, h]

/-- The event returned by `scheduleBody` has a nonzero UUID whenever the
fresh-UUID counter is nonzero. -/
theorem scheduleBody_uuid_nz (s : Sched) (e : Event) (hnz : s.nextUUID ≠ 0) :
    (scheduleBody s e).2.uuid ≠ 0 := by
  by_cases h : e.uuid = 0 <;> simp [scheduleBody, setupEventM, h, hnz]

/-- The events map produced by `scheduleBody` replaces the slot of the
scheduled event's UUID: the stored copy (the event, with the default
action bound when it had none) in front of the map purged of that UUID. -/
theorem scheduleBody_events (s : Sched) (e : Event) :
    (scheduleBody s e).1.events =
      ((scheduleBody s e).2.uuid,
        if (scheduleBody s e).2.hasAction then (scheduleBody s e).2
        else { (scheduleBody s e).2 with hasAction := true }) ::
      eraseKey (scheduleBody s e).2.uuid s.events := by
  by_cases ha : e.hasAction <;>
    simp [scheduleBody, schedulePriv, setupEventM, ha]

/-- C7: scheduling the same event twice with the same UUID leaves the
events map with the same keys as after a single `Schedule`: per-UUID
uniqueness of map entries is preserved by both calls, the second
insertion replaces the existing slot rather than adding an entry (the
map size is unchanged and the UUID is still mapped), and every other
UUID's entry is untouched. -/
theorem C7_schedule_idempotent (s : Sched) (e : Event) (s1 s2 : Sched)
    (e1 e2 : Event)
    (hnz : s.nextUUID ≠ 0)
    (h1 : Schedule s e = .ok (s1, e1))
    (h2 : Schedule s1 e1 = .ok (s2, e2)) :
    e2.uuid = e1.uuid ∧
    (NoDupKeys s.events → NoDupKeys s1.events ∧ NoDupKeys s2.events) ∧
    (∀ w, w ≠ e1.uuid → lookupEv s2.events w = lookupEv s1.events w) ∧
    (∃ c, lookupEv s2.events e1.uuid = some c) ∧
    s2.events.length = s1.events.length := by
  simp only [Schedule] at h1 h2
  split at h1
  · exact absurd h1 (by simp)
  rw [Except.ok.injEq] at h1
  have hpair1 : (s1, e1) = scheduleBody s e := h1.symm
  rw [Prod.ext_iff] at hpair1
  obtain ⟨hs1, he1⟩ := hpair1
  subst hs1; subst he1
  split at h2
  · exact absurd h2 (by simp)
  rw [Except.ok.injEq] at h2
  have hpair2 : (s2, e2) = scheduleBody (scheduleBody s e).1
      (scheduleBody s e).2 := h2.symm
  rw [Prod.ext_iff] at hpair2
  obtain ⟨hs2, he2⟩ := hpair2
  subst hs2; subst he2
  have hu0 : (scheduleBody s e).2.uuid ≠ 0 := scheduleBody_uuid_nz s e hnz
  have huuid : (scheduleBody (scheduleBody s e).1 (scheduleBody s e).2).2.uuid
      = (scheduleBody s e).2.uuid :=
    scheduleBody_uuid (scheduleBody s e).1 (scheduleBody s e).2 hu0
  have hev1 := scheduleBody_events s e
  have hev2 := scheduleBody_events (scheduleBody s e).1 (scheduleBody s e).2
  rw [huuid] at hev2
  refine ⟨huuid, ?_, ?_, ?_, ?_⟩
  · intro hnd
    have hnd1 : NoDupKeys (scheduleBody s e).1.events := by
      rw [hev1]
      exact noDupKeys_insert _ _ _ hnd
    refine ⟨hnd1, ?_⟩
    rw [hev2]
    exact noDupKeys_insert _ _ _ hnd1
  · intro w hw
    rw [hev2, lookupEv_cons_ne _ _ _ _ (fun h => hw h.symm),
      lookupEv_eraseKey_ne _ _ hw]
  · exact ⟨_, by rw [hev2, lookupEv_insert]⟩
  · rw [hev2, hev1]
    simp [eraseKey_cons_self, eraseKey_idem]

/-- C7 witness: scheduling the event with UUID 4 twice from a fresh
scheduler keeps a single map entry for UUID 4, with the same map size as
after one `Schedule`. -/
theorem C7_schedule_idempotent_witness :
    twiceE2.uuid = twiceE1.uuid ∧
    (∃ c, lookupEv twiceS2.events twiceE1.uuid = some c) ∧
    twiceS2.events.length = twiceS1.events.length := by
  have h := C7_schedule_idempotent {} twiceEvt twiceS1 twiceS2 twiceE1 twiceE2
    (by decide) rfl rfl
  exact ⟨h.1, h.2.2.2.1, h.2.2.2.2⟩

/-- A statistics update moves one count between two per-state counters,
so the six counters' sum is unchanged. -/
theorem statsSum_updateStats (st : Stats) (o n : EventState) :
    statsSum (updateStats st o n) = statsSum st := by
  cases o <;> cases n <;>
    simp [updateStats, incState, decState, statsSum] <;> ring

/-- Storing and enqueueing an event touches neither the statistics nor
the ghost tally. -/
theorem SG_schedulePriv (s : Sched) (e : Event) :
    SG (schedulePriv s e) = SG s := by
  simp [SG, schedulePriv]

/-- `scheduleBody` increments only `TotalEventsReceived`, which the six
per-state counters do not include. -/
theorem SG_scheduleBody (s : Sched) (e : Event) :
    SG (scheduleBody s e).1 = SG s := by
  simp [SG, scheduleBody, schedulePriv, statsSum]

/-- A successful `Schedule` preserves the counters measure. -/
theorem SG_ScheduleOk (s : Sched) (e : Event) (s1 : Sched) (e1 : Event)
    (h : Schedule s e = .ok (s1, e1)) : SG s1 = SG s := by
  simp only [Schedule] at h
  split at h
  · exact absurd h (by simp)
  · rw [Except.ok.injEq] at h
    have h1 : (scheduleBody s e).1 = s1 := congrArg Prod.fst h
    rw [← h1]
    exact SG_scheduleBody s e

/-- `Scheduler.SetEventState` preserves the counters measure. -/
theorem SG_setEventStateM (s : Sched) (u : UUID) (st : EventState) :
    SG (setEventStateM s u st) = SG s := by
  simp only [setEventStateM]
  split
  · split <;> simp [SG, statsSum_updateStats]
  · rfl

/-- The package-level `SetEventState` preserves the counters measure. -/
theorem SG_setEventStatePkg (s : Sched) (e : Event) (st : EventState) :
    SG (setEventStatePkg s e st) = SG s := by
  simp only [setEventStatePkg]
  split <;> split <;> simp [SG, statsSum_updateStats]

/-- One sweep step of `removeEventAndDeps` preserves the counters
measure. -/
theorem SG_removeDepsStep (u : UUID) (s : Sched) (kv : UUID × Event) :
    SG (removeDepsStep u s kv) = SG s := by
  simp only [removeDepsStep]
  split <;> simp [SG, statsSum_updateStats]

/-- A fold of measure-preserving steps preserves the measure. -/
theorem SG_foldl {α : Type} (f : Sched → α → Sched)
    (hf : ∀ s a, SG (f s a) = SG s) :
    ∀ (l : List α) (s : Sched), SG (l.foldl f s) = SG s := by
  intro l
  induction l with
  | nil => intro s; rfl
  | cons a rest ih => intro s; rw [List.foldl_cons, ih, hf]

/-- `removeEventAndDeps` preserves the counters measure: each dependent
it cancels is both counted into Cancelled and discounted from its old
state. -/
theorem SG_removeEventAndDeps (s : Sched) (u : UUID) :
    SG (removeEventAndDeps s u) = SG s := by
  have h1 : SG (s.events.foldl (removeDepsStep u) s) = SG s :=
    SG_foldl (removeDepsStep u) (SG_removeDepsStep u) s.events s
  calc SG (removeEventAndDeps s u)
      = SG (s.events.foldl (removeDepsStep u) s) := by
        simp [removeEventAndDeps, SG]
    _ = SG s := h1

/-- `Cancel` preserves the counters measure (by updating none of the
counters for the target). -/
theorem SG_Cancel (s : Sched) (u : UUID) : SG (Cancel s u) = SG s := by
  simp only [Cancel]
  cases h : lookupEv s.events u with
  | none => rfl
  | some ev =>
    rw [SG_removeEventAndDeps]
    simp [SG]

/-- `CancelAll` adds the map size to both `TotalEventsCancelled` and the
ghost tally, preserving the measure. -/
theorem SG_CancelAll (s : Sched) : SG (CancelAll s) = SG s := by
  simp [SG, CancelAll, statsSum]
  ring

/-- `reschedule` preserves the counters measure. -/
theorem SG_reschedule (s : Sched) (ev : Event) :
    SG (reschedule s ev) = SG s := by
  simp only [reschedule]
  split
  · rw [SG_schedulePriv]; simp [SG, statsSum_updateStats]
  · split
    · rw [SG_schedulePriv]; simp [SG, statsSum_updateStats]
    · split
      · rw [SG_schedulePriv]; simp [SG, statsSum_updateStats]
      · simp [SG]

/-- The modelled worker preserves the counters measure. -/
theorem SG_processEventM (s : Sched) (u : UUID) :
    SG (processEventM s u) = SG s := by
  simp only [processEventM]
  split
  · split <;> simp [SG, statsSum_updateStats]
  · rfl

set_option maxHeartbeats 1600000 in
/-- One iteration of the process loop preserves the counters measure:
every branch updates the statistics only through `updateSchedulerStats`
or not at all. -/
theorem SG_iterOut (cfg : ProcessConfig) (dt : Int) (s : Sched) :
    SG (iterOut s (processIter cfg dt s)) = SG s := by
  rcases hit : processIter cfg dt s with s1 | s1 | _ <;> simp only [iterOut]
  all_goals try rfl
  all_goals simp only [processIter] at hit
  all_goals repeat' split at hit
  all_goals try injection hit
  all_goals subst_vars
  all_goals try simp only [SG_processEventM, SG_removeEventAndDeps,
    SG_reschedule, SG_schedulePriv]
  all_goals simp [SG, schedulePriv, statsSum_updateStats]

/-- Every step of the scheduler API, including a full loop iteration,
preserves the counters measure. -/
theorem SG_runOp (cfg : ProcessConfig) (dt : Int) (s : Sched)
    (op : SchedOp) : SG (runOp cfg dt s op) = SG s := by
  cases op with
  | scheduleOp e =>
    simp only [runOp]
    cases h : Schedule s e with
    | ok p =>
      obtain ⟨s1, e1⟩ := p
      exact SG_ScheduleOk s e s1 e1 h
    | error msg => rfl
  | setStateOp u st => exact SG_setEventStateM s u st
  | setStatePkgOp e st => exact SG_setEventStatePkg s e st
  | cancelOp u => exact SG_Cancel s u
  | cancelAllOp => exact SG_CancelAll s
  | iterOp =>
    simp only [runOp]
    exact SG_iterOut cfg dt s

/-- C4 amended: the claimed identity does not relate the counters to
`TotalEventsReceived`.  What holds instead, at every state reachable
from a fresh scheduler by any sequence of Schedule, state-transition,
Cancel, CancelAll and process-loop steps (hence at quiescence), is that
the six per-state counters sum to the total number of map entries swept
by `CancelAll` calls — zero when `CancelAll` never ran — because
`Schedule` increments only `TotalEventsReceived`, every state transition
moves one count between two per-state counters, and `Cancel` counts only
dependents.  The claimed identity therefore fails as soon as one event
has been scheduled (see the counterexample). -/
theorem C4_counters_amended (cfg : ProcessConfig) (dt : Int)
    (ops : List SchedOp) :
    statsSum (runOps cfg dt {} ops).stats =
      (runOps cfg dt {} ops).ghostCancelAll := by
  have h : SG (runOps cfg dt {} ops) = SG {} := by
    simp only [runOps]
    exact SG_foldl (runOp cfg dt) (SG_runOp cfg dt) ops {}
  have h0 : SG ({} : Sched) = 0 := rfl
  rw [h0] at h
  unfold SG at h
  omega

end Engine
